/-
Verification of the CRX packager's version/patch/upload pipeline
(`lib/util.js`).  JavaScript strings are embedded as `List Char`;
JavaScript numbers arising from the string arithmetic in the version
helpers are embedded as `Int` (the values reachable there are integral);
byte buffers are `List Nat` with every byte reduced mod 256.
-/
import Mathlib

set_option linter.unusedVariables false

/-! ### JavaScript string/number coercion helpers

`incrementVersion` and `getPreviousVersion` apply `++`/`-=` to a string
drawn from `version.split('.')`.  JavaScript coerces the string to a
number first and renders the numeric result back when the parts are
joined.  We embed that coercion for the string shapes reachable here:
the empty string (`Number('') = 0`), decimal digit strings, and
`'-'`-prefixed decimal digit strings; every other shape yields `NaN`
(embedded as `none`, rendered `"NaN"`). -/

/-- Decimal value of a digit string, as JavaScript's `Number` computes it. -/
def decimalValue (s : List Char) : Nat :=
  s.foldl (fun a c => 10 * a + (c.toNat - 48)) 0

/-- JavaScript `Number(s)` on the string shapes reachable in the version
helpers; `none` stands for `NaN`. -/
def jsToNumber? (s : List Char) : Option Int :=
  if s = [] then some 0
  else if s.all Char.isDigit then some (decimalValue s)
  else
    match s with
    | '-' :: rest =>
      if rest ≠ [] ∧ rest.all Char.isDigit then some (-(decimalValue rest : Int))
      else none
    | _ => none

/-- Little-endian base-10 digits, fuelled so that it reduces in the kernel. -/
def natDigitsRev : Nat → Nat → List Nat
  | 0, _ => []
  | _ + 1, 0 => []
  | fuel + 1, n + 1 => (n + 1) % 10 :: natDigitsRev fuel ((n + 1) / 10)

theorem natDigitsRev_eq (fuel n : Nat) (h : n ≤ fuel) :
    natDigitsRev fuel n = Nat.digits 10 n := by
  induction fuel generalizing n with
  | zero =>
    have hn : n = 0 := Nat.le_zero.mp h
    subst hn
    simp [natDigitsRev]
  | succ fuel ih =>
    cases n with
    | zero => simp [natDigitsRev]
    | succ m =>
      have hlt : (m + 1) / 10 < m + 1 := Nat.div_lt_self (Nat.succ_pos m) (by norm_num)
      have hdiv : (m + 1) / 10 ≤ fuel := by omega
      rw [natDigitsRev, ih _ hdiv, Nat.digits_def' (by norm_num : 1 < 10) (Nat.succ_pos m)]

/-- Decimal rendering of a natural number, as JavaScript's number-to-string
coercion produces at `join` time. -/
def natToChars (n : Nat) : List Char :=
  if n = 0 then ['0']
  else ((natDigitsRev n n).map (fun d => Char.ofNat (48 + d))).reverse

theorem natToChars_eq_digits (n : Nat) :
    natToChars n =
      if n = 0 then ['0']
      else ((Nat.digits 10 n).map (fun d => Char.ofNat (48 + d))).reverse := by
  unfold natToChars
  rw [natDigitsRev_eq n n (Nat.le_refl n)]

/-- JavaScript number-to-string coercion for integers
(`String(-1) = "-1"`, `String(-0) = "0"`). -/
def jsNumberToString (i : Int) : List Char :=
  if i < 0 then '-' :: natToChars i.natAbs else natToChars i.toNat

/-- JavaScript `s + d` / `s -= d` on a string `s`: coerce, add, render. -/
def jsNumericAdd (s : List Char) (d : Int) : List Char :=
  match jsToNumber? s with
  | some n => jsNumberToString (n + d)
  | none => "NaN".data

/-! ### The version helpers (`lib/util.js` lines 113–118, 328–337) -/

/-- `version.split('.')` of JavaScript. -/
def splitOnDot (s : List Char) : List (List Char) :=
  s.splitOn '.'

/-- `versionParts.join('.')` of JavaScript. -/
def joinDots (parts : List (List Char)) : List Char :=
  List.intercalate ['.'] parts

/-- The distinguished first version `'1.0.0'` (`lib/util.js` line 20). -/
def FirstVersion : List Char := "1.0.0".data

/-- `incrementVersion` (`lib/util.js` lines 114–118): split on `'.'`,
apply `++` to the last part, join. -/
def incrementVersion (version : List Char) : List Char :=
  joinDots ((splitOnDot version).dropLast ++
    [jsNumericAdd ((splitOnDot version).getLastD []) 1])

/-- `getPreviousVersion` (`lib/util.js` lines 329–337): the first version
maps to itself; otherwise split on `'.'`, apply `-= diff` to the last
part, join. -/
def getPreviousVersion (version : List Char) (diff : Int) : List Char :=
  if version = FirstVersion then FirstVersion
  else
    joinDots ((splitOnDot version).dropLast ++
      [jsNumericAdd ((splitOnDot version).getLastD []) (-diff)])

/-- Canonical rendering `"a.b.c"` of a 3-part dotted numeric version. -/
def verChars (a b c : Nat) : List Char :=
  natToChars a ++ '.' :: natToChars b ++ '.' :: natToChars c

/-! ### Rendering/parsing round-trip lemmas -/

theorem natToChars_all_isDigit (n : Nat) : (natToChars n).all Char.isDigit = true := by
  rw [natToChars_eq_digits]
  split
  · decide
  · rw [List.all_eq_true]
    intro c hc
    rw [List.mem_reverse, List.mem_map] at hc
    obtain ⟨d, hd, rfl⟩ := hc
    have h10 : d < 10 := Nat.digits_lt_base (by norm_num) hd
    interval_cases d <;> decide

theorem natToChars_ne_nil (n : Nat) : natToChars n ≠ [] := by
  rw [natToChars_eq_digits]
  split
  · simp
  · simp_all [Nat.digits_ne_nil_iff_ne_zero]

theorem dot_not_mem_natToChars (n : Nat) : '.' ∉ natToChars n := by
  intro hmem
  have h := natToChars_all_isDigit n
  rw [List.all_eq_true] at h
  have := h _ hmem
  simp [Char.isDigit] at this

theorem decimalValue_digits (L : List Nat) (hL : ∀ d ∈ L, d < 10) :
    decimalValue ((L.map (fun d => Char.ofNat (48 + d))).reverse) = Nat.ofDigits 10 L := by
  induction L with
  | nil => rfl
  | cons d L ih =>
    have hd : d < 10 := hL d (by simp)
    have hchar : (Char.ofNat (48 + d)).toNat - 48 = d := by
      interval_cases d <;> decide
    simp only [List.map_cons, List.reverse_cons]
    unfold decimalValue at ih ⊢
    rw [List.foldl_append, ih (fun x hx => hL x (by simp [hx]))]
    simp only [List.foldl_cons, List.foldl_nil, Nat.ofDigits_cons, hchar]
    omega

theorem decimalValue_natToChars (n : Nat) : decimalValue (natToChars n) = n := by
  rw [natToChars_eq_digits]
  split
  · simp_all [decimalValue]
  · rw [decimalValue_digits _ (fun d hd => Nat.digits_lt_base (by norm_num) hd),
      Nat.ofDigits_digits]

theorem jsToNumber?_natToChars (n : Nat) : jsToNumber? (natToChars n) = some (n : Int) := by
  unfold jsToNumber?
  rw [if_neg (natToChars_ne_nil n), if_pos (natToChars_all_isDigit n),
    decimalValue_natToChars]

theorem jsNumberToString_natCast (n : Nat) : jsNumberToString (n : Int) = natToChars n := by
  unfold jsNumberToString
  rw [if_neg (by exact_mod_cast Int.not_lt.mpr (Int.natCast_nonneg n))]
  simp

theorem jsNumericAdd_natToChars (n : Nat) (d : Int) :
    jsNumericAdd (natToChars n) d = jsNumberToString ((n : Int) + d) := by
  unfold jsNumericAdd
  rw [jsToNumber?_natToChars]

theorem natToChars_eq_zeroChar (n : Nat) (h : natToChars n = ['0']) : n = 0 := by
  have := decimalValue_natToChars n
  rw [h] at this
  simpa [decimalValue] using this.symm

/-! ### Splitting a rendered 3-part version -/

theorem joinDots_three (x y z : List Char) :
    joinDots [x, y, z] = x ++ '.' :: y ++ '.' :: z := by
  simp [joinDots, List.intercalate, List.intersperse]

theorem splitOnDot_verChars (a b c : Nat) :
    splitOnDot (verChars a b c) = [natToChars a, natToChars b, natToChars c] := by
  unfold splitOnDot verChars
  rw [show natToChars a ++ '.' :: natToChars b ++ '.' :: natToChars c =
      List.intercalate ['.'] [natToChars a, natToChars b, natToChars c] from
    (joinDots_three _ _ _).symm]
  refine List.splitOn_intercalate _ '.' ?_ (by simp)
  intro l hl
  simp only [List.mem_cons, List.not_mem_nil, or_false] at hl
  rcases hl with rfl | rfl | rfl <;> exact dot_not_mem_natToChars _

theorem dropLast_three (x y z : List Char) : ([x, y, z]).dropLast = [x, y] := rfl

theorem getLastD_three (x y z : List Char) : ([x, y, z]).getLastD [] = z := rfl

/-- `incrementVersion` on a canonical 3-part version bumps exactly the
trailing segment. -/
theorem incrementVersion_verChars (a b c : Nat) :
    incrementVersion (verChars a b c) = verChars a b (c + 1) := by
  unfold incrementVersion
  rw [splitOnDot_verChars, dropLast_three, getLastD_three, jsNumericAdd_natToChars]
  have h1 : (c : Int) + 1 = ((c + 1 : Nat) : Int) := by push_cast; ring
  rw [h1, jsNumberToString_natCast]
  simpa [verChars] using joinDots_three (natToChars a) (natToChars b) (natToChars (c + 1))

theorem verChars_succ_ne_firstVersion (a b c : Nat) :
    verChars a b (c + 1) ≠ FirstVersion := by
  intro h
  have hsplit := splitOnDot_verChars a b (c + 1)
  rw [h] at hsplit
  have hfv : splitOnDot FirstVersion = [['1'], ['0'], ['0']] := by decide
  rw [hfv] at hsplit
  have hc : natToChars (c + 1) = ['0'] := by
    injection hsplit with h1 h2
    injection h2 with h3 h4
    injection h4 with h5 h6
    exact h5.symm
  exact Nat.succ_ne_zero c (natToChars_eq_zeroChar _ hc)

/-- `getPreviousVersion` on a canonical 3-part version other than the
first version subtracts `diff` from the trailing segment. -/
theorem getPreviousVersion_verChars (a b c : Nat) (diff : Int)
    (h : verChars a b c ≠ FirstVersion) :
    getPreviousVersion (verChars a b c) diff =
      natToChars a ++ '.' :: natToChars b ++ '.' :: jsNumberToString ((c : Int) - diff) := by
  unfold getPreviousVersion
  rw [if_neg h, splitOnDot_verChars, dropLast_three, getLastD_three, jsNumericAdd_natToChars]
  have h1 : (c : Int) + -diff = (c : Int) - diff := by ring
  rw [h1]
  exact joinDots_three _ _ _

/-! ### The version ledger (`lib/util.js` lines 497–554)

A DynamoDB item as written by `updateDynamoDB`: hash key `ID`, string
attributes `SHA256`, `Version`, `Title`, boolean `Disabled`, a patch map,
and an optional `ContentHash`.  A query on the `ID` hash key returns at
most one item, so a stored ledger state is an `Option LedgerItem` and the
query's `Items` array is its `toList`. -/

/-- One entry of the `PatchList` map (`getDiffPatchList`, lines 280–293). -/
structure PatchEntry where
  Namediff : List Char
  Hashdiff : List Char
  Sizediff : List Char
deriving DecidableEq

/-- A ledger record, as `updateDynamoDB` stores it (lines 524–552). -/
structure LedgerItem where
  ID : List Char
  SHA256 : List Char
  Version : List Char
  Title : List Char
  Disabled : Bool
  PatchList : List (List Char × PatchEntry)
  ContentHash : Option (List Char)
deriving DecidableEq

/-- `getNextVersion` (`lib/util.js` lines 497–520), applied to the
`Items` array the ledger query returns.  `none` embeds the JavaScript
`undefined` (`NoChange`). -/
def getNextVersion (items : List LedgerItem) (contentHash : List Char) : Option (List Char) :=
  match items with
  | [item] =>
    if item.Version ≠ [] then
      if item.ContentHash = some contentHash then none
      else some (incrementVersion item.Version)
    else some "1.0.0".data
  | _ => some "1.0.0".data

/-- A stored record whose `Version` attribute is the empty string. -/
def emptyVersionItem : LedgerItem :=
  { ID := "id".data, SHA256 := [], Version := [], Title := [], Disabled := false,
    PatchList := [], ContentHash := some "h".data }

/-! ### Claims C1–C4, C10 -/

/-- C2: for every identity with no existing ledger record and every
content hash, `getNextVersion` returns the distinguished first version
`"1.0.0"`. -/
theorem getNextVersion_no_record (contentHash : List Char) :
    getNextVersion (Option.toList (none : Option LedgerItem)) contentHash =
      some "1.0.0".data := rfl

/-- C1, counterexample: a stored record whose `Version` is the empty
string and whose `ContentHash` equals the queried hash makes
`getNextVersion` return `"1.0.0"`, not `NoChange`, so the claimed
equivalence fails at this stored state. -/
theorem getNextVersion_noChange_iff_cex :
    ¬ (getNextVersion (Option.toList (some emptyVersionItem)) "h".data = none ↔
        ∃ item, (some emptyVersionItem : Option LedgerItem) = some item ∧
          item.ContentHash = some "h".data) := by
  intro h
  have hnone : getNextVersion (Option.toList (some emptyVersionItem)) "h".data = none :=
    h.mpr ⟨emptyVersionItem, rfl, rfl⟩
  simp [getNextVersion, emptyVersionItem, Option.toList] at hnone

/-- C1, amended: for every stored ledger state and content hash,
`getNextVersion` returns `NoChange` (`undefined`) if and only if a record
exists whose stored `Version` is nonempty and whose stored content hash
equals the queried hash. -/
theorem getNextVersion_noChange_iff (store : Option LedgerItem) (contentHash : List Char) :
    getNextVersion (Option.toList store) contentHash = none ↔
      ∃ item, store = some item ∧ item.Version ≠ [] ∧
        item.ContentHash = some contentHash := by
  cases store with
  | none => simp [getNextVersion, Option.toList]
  | some item =>
    simp only [Option.toList]
    by_cases hv : item.Version = []
    · simp [getNextVersion, hv]
    · by_cases hch : item.ContentHash = some contentHash
      · simp [getNextVersion, hv, hch]
      · simp [getNextVersion, hv, hch]

/-- C3: for every 3-part dotted numeric version, incrementing and then
taking the previous version with `diff = 1` is the identity (here proved
with no exception at all, which subsumes the claim's carve-out at the
first-version boundary). -/
theorem incrementThenDecrement (a b c : Nat) :
    getPreviousVersion (incrementVersion (verChars a b c)) 1 = verChars a b c := by
  rw [incrementVersion_verChars,
    getPreviousVersion_verChars a b (c + 1) 1 (verChars_succ_ne_firstVersion a b c)]
  have h1 : ((c + 1 : Nat) : Int) - 1 = (c : Int) := by push_cast; ring
  rw [h1, jsNumberToString_natCast]
  exact rfl

/-- C4: `incrementVersion` changes only the trailing dotted segment,
leaving the earlier segments unchanged, incrementing it by exactly 1 in
decimal with no rollover; in particular `"1.0.9"` increments to
`"1.0.10"`. -/
theorem incrementVersion_trailing_segment :
    (∀ a b c : Nat, incrementVersion (verChars a b c) = verChars a b (c + 1)) ∧
    incrementVersion "1.0.9".data = "1.0.10".data :=
  ⟨incrementVersion_verChars, by decide⟩

/-- C10: `getPreviousVersion` returns `"1.0.0"` unchanged exactly on the
input `"1.0.0"`; on every other 3-part numeric version it subtracts
`diff` from the trailing segment even when the result is negative, e.g.
`getPreviousVersion("1.0.2", 3) = "1.0.-1"`. -/
theorem getPreviousVersion_subtracts :
    (∀ diff : Int, getPreviousVersion "1.0.0".data diff = "1.0.0".data) ∧
    (∀ (a b c : Nat) (diff : Int), verChars a b c ≠ "1.0.0".data →
      getPreviousVersion (verChars a b c) diff =
        natToChars a ++ '.' :: natToChars b ++ '.' :: jsNumberToString ((c : Int) - diff)) ∧
    getPreviousVersion "1.0.2".data 3 = "1.0.-1".data := by
  refine ⟨fun diff => ?_, fun a b c diff h => ?_, by decide⟩
  · unfold getPreviousVersion FirstVersion
    rw [if_pos rfl]
  · exact getPreviousVersion_verChars a b c diff h

/-- Witness for C10: the general subtraction branch applied at the
concrete version `"1.0.2"` with `diff = 3`. -/
theorem getPreviousVersion_subtracts_witness :
    verChars 1 0 2 ≠ "1.0.0".data ∧
    getPreviousVersion (verChars 1 0 2) 3 =
      natToChars 1 ++ '.' :: natToChars 0 ++ '.' :: jsNumberToString (((2 : Nat) : Int) - 3) :=
  ⟨by decide, getPreviousVersion_subtracts.2.1 1 0 2 3 (by decide)⟩

/-! ### Path helpers (Node `path.parse` / `path.join`, as used here) -/

/-- `path.parse(p).base`: the part after the last `'/'`. -/
def baseOf (p : List Char) : List Char :=
  (p.reverse.takeWhile (fun c => c ≠ '/')).reverse

/-- `path.parse(p).ext`: the basename's suffix from its last `'.'`;
empty when the basename has no dot or only a leading dot. -/
def extOf (p : List Char) : List Char :=
  if ((baseOf p).reverse.takeWhile (fun c => c ≠ '.')).length = (baseOf p).length ∨
      ((baseOf p).reverse.takeWhile (fun c => c ≠ '.')).length + 1 = (baseOf p).length then []
  else '.' :: ((baseOf p).reverse.takeWhile (fun c => c ≠ '.')).reverse

/-- `path.parse(p).name`: the basename without its extension. -/
def nameOf (p : List Char) : List Char :=
  (baseOf p).take ((baseOf p).length - (extOf p).length)

/-- `path.join(a, b)` for the simple relative paths used here. -/
def pathJoin (a b : List Char) : List Char := a ++ '/' :: b

/-! ### The artifact publisher (`uploadExtension`, `lib/util.js` lines 339–453)

The object store, the filesystem and the external outcomes are an oracle
environment; the run is embedded as the list of S3 requests issued, in
order, together with the promise outcome (`Except.error` embeds a
rejection with the thrown message). -/

/-- Result of the `HeadObjectCommand` as `uploadExtension` discriminates
it: success, an error with `err.code === 'NotFound'`, or any other
error. -/
inductive HeadResult
  | success
  | errNotFound
  | errOther
deriving DecidableEq

/-- `fs.readdirSync` failure: `err.code === 'ENOENT'` or any other error. -/
inductive FsError
  | enoent
  | other
deriving DecidableEq

/-- Oracle for the S3 client and filesystem calls of `uploadExtension`. -/
structure S3Env where
  putOk : List Char → Bool
  tagOk : List Char → Bool
  headResult : List Char → HeadResult
  readdir : List Char → Except FsError (List (List Char))

/-- An S3 request issued by `uploadExtension`, in issue order. -/
inductive S3Action
  | put (bucket key : List Char)
  | putTagging (key : List Char) (tags : List (List Char × List Char))
  | head (key : List Char)
deriving DecidableEq

/-- `S3_EXTENSIONS_BUCKET` (line 21; the `'brave-core-ext'` default). -/
def S3_EXTENSIONS_BUCKET : List Char := "brave-core-ext".data

def uploadFailMsg : List Char := "Failed to upload extension to S3".data

def headFailMsg : List Char := "Unexpected error with HeadObject command".data

/-- The error value rethrown when `readdirSync` fails other than `ENOENT`. -/
def fsErrorMsg : List Char := "fs error".data

/-- `version.replace(/\./g, '_')`. -/
def dotsToUnderscores (s : List Char) : List Char :=
  s.map (fun c => if c = '.' then '_' else c)

/-- `name.replace(/\s/g, '-')`. -/
def whitespaceToDashes (s : List Char) : List Char :=
  s.map (fun c => if c = ' ' ∨ c = '\t' ∨ c = '\n' ∨ c = '\r' then '-' else c)

/-- Membership in the tag character class `[a-zA-Z0-9+\-=._:/@]`. -/
def isTagChar (c : Char) : Bool :=
  ('a' ≤ c && c ≤ 'z') || ('A' ≤ c && c ≤ 'Z') || ('0' ≤ c && c ≤ '9') ||
  c == '+' || c == '-' || c == '=' || c == '.' || c == '_' || c == ':' ||
  c == '/' || c == '@'

/-- `componentName.replace(/[^a-zA-Z0-9+\-=._:/@]+/g, '')`. -/
def tagSanitize (s : List Char) : List Char := s.filter isTagChar

/-- `extension_${version.replace(/\./g, '_')}.crx` (line 357). -/
def componentFilenameOf (version : List Char) : List Char :=
  "extension_".data ++ dotsToUnderscores version ++ ".crx".data

/-- `release/${id}/${componentFilename}` (line 365). -/
def mainKeyOf (id version : List Char) : List Char :=
  "release/".data ++ id ++ "/".data ++ componentFilenameOf version

/-- `release/${id}/${previousComponentFilename}` (line 419). -/
def prevKeyOf (id version : List Char) : List Char :=
  "release/".data ++ id ++ "/".data ++ componentFilenameOf (getPreviousVersion version 1)

/-- `build/patches/${id}/${hash}` (line 364). -/
def patchDirOf (id hash : List Char) : List Char :=
  "build/patches/".data ++ id ++ "/".data ++ hash

/-- `release/${id}/patches/${hash}/${file}` (line 374). -/
def patchKeyOf (id hash file : List Char) : List Char :=
  "release/".data ++ id ++ "/patches/".data ++ hash ++ "/".data ++ file

/-- The `.puff` filter of the patch upload loop (line 373). -/
def isPuffFile (id hash file : List Char) : Bool :=
  extOf (pathJoin (patchDirOf id hash) file) == ".puff".data

/-- Lines 387–453: tag the new artifact, then head the previous artifact
and, only if it exists, re-tag it without the latest marker. -/
def uploadExtensionTagPhase (env : S3Env) (name id version : List Char) :
    List S3Action × Except (List Char) Unit :=
  if env.tagOk (mainKeyOf id version) = false then
    ([S3Action.putTagging (mainKeyOf id version)
        [(tagSanitize (whitespaceToDashes name), version),
         ("version".data, tagSanitize (whitespaceToDashes name) ++ "/latest".data)]],
     .error uploadFailMsg)
  else
    match env.headResult (prevKeyOf id version) with
    | .errNotFound =>
      ([S3Action.putTagging (mainKeyOf id version)
          [(tagSanitize (whitespaceToDashes name), version),
           ("version".data, tagSanitize (whitespaceToDashes name) ++ "/latest".data)],
        S3Action.head (prevKeyOf id version)], .ok ())
    | .errOther =>
      ([S3Action.putTagging (mainKeyOf id version)
          [(tagSanitize (whitespaceToDashes name), version),
           ("version".data, tagSanitize (whitespaceToDashes name) ++ "/latest".data)],
        S3Action.head (prevKeyOf id version)], .error headFailMsg)
    | .success =>
      if env.tagOk (prevKeyOf id version) = false then
        ([S3Action.putTagging (mainKeyOf id version)
            [(tagSanitize (whitespaceToDashes name), version),
             ("version".data, tagSanitize (whitespaceToDashes name) ++ "/latest".data)],
          S3Action.head (prevKeyOf id version),
          S3Action.putTagging (prevKeyOf id version)
            [(tagSanitize (whitespaceToDashes name), getPreviousVersion version 1)]],
         .error uploadFailMsg)
      else
        ([S3Action.putTagging (mainKeyOf id version)
            [(tagSanitize (whitespaceToDashes name), version),
             ("version".data, tagSanitize (whitespaceToDashes name) ++ "/latest".data)],
          S3Action.head (prevKeyOf id version),
          S3Action.putTagging (prevKeyOf id version)
            [(tagSanitize (whitespaceToDashes name), getPreviousVersion version 1)]],
         .ok ())

/-- `uploadExtension` (lines 356–453): upload the artifact, start every
patch upload, await them all, then run the tag phase. -/
def uploadExtension (env : S3Env) (name id version hash crxFile : List Char) :
    List S3Action × Except (List Char) Unit :=
  if env.putOk (mainKeyOf id version) = false then
    ([S3Action.put S3_EXTENSIONS_BUCKET (mainKeyOf id version)], .error uploadFailMsg)
  else
    match env.readdir (patchDirOf id hash) with
    | .error .other =>
      ([S3Action.put S3_EXTENSIONS_BUCKET (mainKeyOf id version)], .error fsErrorMsg)
    | .error .enoent =>
      (S3Action.put S3_EXTENSIONS_BUCKET (mainKeyOf id version) ::
        (uploadExtensionTagPhase env name id version).1,
       (uploadExtensionTagPhase env name id version).2)
    | .ok files =>
      if (files.filter (isPuffFile id hash)).any
          (fun file => !(env.putOk (patchKeyOf id hash file))) then
        (S3Action.put S3_EXTENSIONS_BUCKET (mainKeyOf id version) ::
          (files.filter (isPuffFile id hash)).map
            (fun file => S3Action.put S3_EXTENSIONS_BUCKET (patchKeyOf id hash file)),
         .error uploadFailMsg)
      else
        (S3Action.put S3_EXTENSIONS_BUCKET (mainKeyOf id version) ::
          (files.filter (isPuffFile id hash)).map
            (fun file => S3Action.put S3_EXTENSIONS_BUCKET (patchKeyOf id hash file)) ++
          (uploadExtensionTagPhase env name id version).1,
         (uploadExtensionTagPhase env name id version).2)

/-- Whether the run gets past the patch-upload batch (ENOENT is benign;
otherwise every `.puff` upload must succeed). -/
def patchPhaseOk (env : S3Env) (id hash : List Char) : Bool :=
  match env.readdir (patchDirOf id hash) with
  | .error .enoent => true
  | .error .other => false
  | .ok files =>
    !((files.filter (isPuffFile id hash)).any
        (fun file => !(env.putOk (patchKeyOf id hash file))))

/-- Recogniser for tag-write requests. -/
def isTagWrite : S3Action → Bool
  | .putTagging _ _ => true
  | _ => false

theorem countP_tagWrite_map_put (bucket : List Char) (g : List Char → List Char)
    (files : List (List Char)) :
    (files.map (fun file => S3Action.put bucket (g file))).countP isTagWrite = 0 := by
  induction files with
  | nil => rfl
  | cons f fs ih => simp [List.countP_cons, ih, isTagWrite]

/-- C5: when the run reaches the latest-tag phase and the head request on
the previous version's object reports not-found, `uploadExtension`
completes without error and issues exactly one tag write (the one on the
new artifact) — no second tag write on the previous object. -/
theorem uploadExtension_prev_notFound (env : S3Env) (name id version hash crxFile : List Char)
    (h1 : env.putOk (mainKeyOf id version) = true)
    (h2 : patchPhaseOk env id hash = true)
    (h3 : env.tagOk (mainKeyOf id version) = true)
    (h4 : env.headResult (prevKeyOf id version) = HeadResult.errNotFound) :
    (uploadExtension env name id version hash crxFile).2 = .ok () ∧
    ((uploadExtension env name id version hash crxFile).1.countP isTagWrite) = 1 := by
  have htag : uploadExtensionTagPhase env name id version =
      ([S3Action.putTagging (mainKeyOf id version)
          [(tagSanitize (whitespaceToDashes name), version),
           ("version".data, tagSanitize (whitespaceToDashes name) ++ "/latest".data)],
        S3Action.head (prevKeyOf id version)], .ok ()) := by
    simp [uploadExtensionTagPhase, h3, h4]
  unfold patchPhaseOk at h2
  cases hr : env.readdir (patchDirOf id hash) with
  | error e =>
    cases e with
    | enoent =>
      simp [uploadExtension, h1, hr, htag, List.countP_cons, isTagWrite]
    | other =>
      rw [hr] at h2
      simp at h2
  | ok files =>
    rw [hr] at h2
    simp only [Bool.not_eq_true'] at h2
    simp [uploadExtension, h1, hr, h2, htag, List.countP_cons, List.countP_append,
      countP_tagWrite_map_put, isTagWrite]

/-- C6: in the patch-upload batch, when one or more individual patch
uploads fail, every patch upload in the batch is still attempted and the
failure is surfaced only after the whole batch. -/
theorem uploadExtension_patch_batch (env : S3Env) (name id version hash crxFile : List Char)
    (files : List (List Char))
    (h1 : env.putOk (mainKeyOf id version) = true)
    (h2 : env.readdir (patchDirOf id hash) = .ok files)
    (h3 : (files.filter (isPuffFile id hash)).any
        (fun file => !(env.putOk (patchKeyOf id hash file))) = true) :
    (∀ file ∈ files, isPuffFile id hash file = true →
      S3Action.put S3_EXTENSIONS_BUCKET (patchKeyOf id hash file) ∈
        (uploadExtension env name id version hash crxFile).1) ∧
    (uploadExtension env name id version hash crxFile).2 = .error uploadFailMsg := by
  constructor
  · intro file hf hp
    simp only [uploadExtension, h1, h2, h3, Bool.true_eq_false, if_neg, if_pos,
      Bool.false_eq_true, reduceIte]
    exact List.mem_cons_of_mem _
      (List.mem_map_of_mem _ (List.mem_filter.mpr ⟨hf, hp⟩))
  · simp [uploadExtension, h1, h2, h3]

/-- An environment for the witness of C5: every S3 call succeeds, there
is no patch directory, and the previous artifact does not exist. -/
def env5 : S3Env :=
  { putOk := fun _ => true, tagOk := fun _ => true,
    headResult := fun _ => HeadResult.errNotFound,
    readdir := fun _ => .error .enoent }

/-- Witness for C5 at a concrete publish of version `1.0.1`. -/
theorem uploadExtension_prev_notFound_witness :
    env5.putOk (mainKeyOf "i".data "1.0.1".data) = true ∧
    patchPhaseOk env5 "i".data "h".data = true ∧
    env5.tagOk (mainKeyOf "i".data "1.0.1".data) = true ∧
    env5.headResult (prevKeyOf "i".data "1.0.1".data) = HeadResult.errNotFound ∧
    ((uploadExtension env5 "n".data "i".data "1.0.1".data "h".data "f".data).2 = .ok () ∧
      ((uploadExtension env5 "n".data "i".data "1.0.1".data "h".data "f".data).1.countP
        isTagWrite) = 1) :=
  ⟨rfl, rfl, rfl, rfl,
    uploadExtension_prev_notFound env5 "n".data "i".data "1.0.1".data "h".data "f".data
      rfl rfl rfl rfl⟩

/-- An environment for the witness of C6: the main artifact upload
succeeds, the patch directory holds two `.puff` files, and every patch
upload fails. -/
def env6 : S3Env :=
  { putOk := fun k => k == mainKeyOf "i".data "1.0.1".data,
    tagOk := fun _ => true,
    headResult := fun _ => HeadResult.success,
    readdir := fun _ => .ok ["a.puff".data, "b.puff".data] }

/-- Witness for C6: both patch uploads are attempted and the batch error
is surfaced afterwards. -/
theorem uploadExtension_patch_batch_witness :
    env6.putOk (mainKeyOf "i".data "1.0.1".data) = true ∧
    env6.readdir (patchDirOf "i".data "h".data) = .ok ["a.puff".data, "b.puff".data] ∧
    (["a.puff".data, "b.puff".data].filter (isPuffFile "i".data "h".data)).any
      (fun file => !(env6.putOk (patchKeyOf "i".data "h".data file))) = true ∧
    ((∀ file ∈ ["a.puff".data, "b.puff".data], isPuffFile "i".data "h".data file = true →
        S3Action.put S3_EXTENSIONS_BUCKET (patchKeyOf "i".data "h".data file) ∈
          (uploadExtension env6 "n".data "i".data "1.0.1".data "h".data "f".data).1) ∧
      (uploadExtension env6 "n".data "i".data "1.0.1".data "h".data "f".data).2 =
        .error uploadFailMsg) :=
  ⟨by decide, rfl, by decide,
    uploadExtension_patch_batch env6 "n".data "i".data "1.0.1".data "h".data "f".data
      ["a.puff".data, "b.puff".data] (by decide) rfl (by decide)⟩

/-! ### `fetchTextFromURL` (`lib/util.js` lines 36–65)

The loop builds a promise chain `p = p.catch(attempt).catch(delayReject(delayMs))`
starting from a rejected promise, `maxAttempts` times.  A fulfilled chain
passes through both catches untouched; a rejected one runs the next
attempt and, if that attempt fails too, a `delayMs` timer before
re-rejecting.  The oracle gives the outcome of the `i`-th `attempt()`
call; the run is the list of attempt/delay events plus the final
settlement. -/

/-- Oracle: outcome of the `i`-th `attempt()` call (body text or error
message). -/
structure FetchEnv where
  attempt : Nat → Except (List Char) (List Char)

inductive FetchEvent
  | attemptCall (i : Nat)
  | delay (ms : Nat)
deriving DecidableEq

/-- `maxAttempts` (line 55). -/
def maxAttempts : Nat := 5

/-- `delayMs` (line 56). -/
def delayMs : Nat := 3000

/-- One loop iteration `p.catch(attempt).catch(delayReject(delayMs))`. -/
def fetchStep (env : FetchEnv) (st : List FetchEvent × Except (List Char) (List Char))
    (i : Nat) : List FetchEvent × Except (List Char) (List Char) :=
  match st.2 with
  | .ok t => st
  | .error _ =>
    match env.attempt i with
    | .ok t => (st.1 ++ [FetchEvent.attemptCall i], .ok t)
    | .error e => (st.1 ++ [FetchEvent.attemptCall i, FetchEvent.delay delayMs], .error e)

/-- The chain after `n` loop iterations, seeded with
`Promise.reject(new Error())` (line 58). -/
def fetchRun (env : FetchEnv) (n : Nat) : List FetchEvent × Except (List Char) (List Char) :=
  (List.range n).foldl (fetchStep env) ([], .error [])

/-- `fetchTextFromURL` (lines 36–65). -/
def fetchTextFromURL (env : FetchEnv) : List FetchEvent × Except (List Char) (List Char) :=
  fetchRun env maxAttempts

/-- The event trace of `n` failed attempts. -/
def failTrace : Nat → List FetchEvent
  | 0 => []
  | n + 1 => failTrace n ++ [FetchEvent.attemptCall n, FetchEvent.delay delayMs]

theorem fetchRun_succ (env : FetchEnv) (n : Nat) :
    fetchRun env (n + 1) = fetchStep env (fetchRun env n) n := by
  unfold fetchRun
  rw [List.range_succ, List.foldl_append, List.foldl_cons, List.foldl_nil]

theorem fetchRun_fail_upto (env : FetchEnv) (n : Nat)
    (h : ∀ j, j < n → (env.attempt j).isOk = false) :
    ∃ e, fetchRun env n = (failTrace n, .error e) := by
  induction n with
  | zero => exact ⟨[], rfl⟩
  | succ n ih =>
    obtain ⟨e, he⟩ := ih (fun j hj => h j (Nat.lt_succ_of_lt hj))
    have hn := h n (Nat.lt_succ_self n)
    cases ha : env.attempt n with
    | ok t => rw [ha] at hn; simp [Except.isOk, Except.toBool] at hn
    | error e' =>
      refine ⟨e', ?_⟩
      rw [fetchRun_succ, he]
      simp [fetchStep, ha, failTrace]

theorem fetchRun_ok_stable (env : FetchEnv) (n m : Nat) (evs : List FetchEvent)
    (t : List Char) (h : fetchRun env n = (evs, .ok t)) (hm : n ≤ m) :
    fetchRun env m = (evs, .ok t) := by
  induction m with
  | zero =>
    have : n = 0 := Nat.le_zero.mp hm
    subst this
    exact h
  | succ m ih =>
    rcases Nat.lt_or_ge n (m + 1) with hlt | hge
    · have hm' : n ≤ m := Nat.lt_succ_iff.mp hlt
      rw [fetchRun_succ, ih hm']
      rfl
    · have : n = m + 1 := Nat.le_antisymm hm hge
      subst this
      exact h

/-- C8: `fetchTextFromURL` makes at most 5 attempts separated by 3000 ms
delays; it settles fulfilled with the body text of the first successful
attempt, and when all 5 attempts fail it settles rejected with the final
attempt's error. -/
theorem fetchTextFromURL_retries (env : FetchEnv) :
    maxAttempts = 5 ∧ delayMs = 3000 ∧
    (∀ i t, i < maxAttempts → (∀ j, j < i → (env.attempt j).isOk = false) →
      env.attempt i = .ok t →
      fetchTextFromURL env = (failTrace i ++ [FetchEvent.attemptCall i], .ok t)) ∧
    ((∀ j, j < maxAttempts → (env.attempt j).isOk = false) →
      fetchTextFromURL env = (failTrace maxAttempts, env.attempt (maxAttempts - 1))) := by
  refine ⟨rfl, rfl, ?_, ?_⟩
  · intro i t hi hfail hok
    obtain ⟨e, he⟩ := fetchRun_fail_upto env i hfail
    have hstep : fetchRun env (i + 1) = (failTrace i ++ [FetchEvent.attemptCall i], .ok t) := by
      rw [fetchRun_succ, he]
      simp [fetchStep, hok]
    exact fetchRun_ok_stable env (i + 1) maxAttempts _ _ hstep hi
  · intro hfail
    have h4 := hfail 4 (by decide)
    cases ha : env.attempt 4 with
    | ok t => rw [ha] at h4; simp [Except.isOk, Except.toBool] at h4
    | error e =>
      obtain ⟨e', he'⟩ := fetchRun_fail_upto env 4
        (fun j hj => hfail j (Nat.lt_of_lt_of_le hj (by decide)))
      show fetchRun env 5 = _
      have h5 : (5 : Nat) = 4 + 1 := rfl
      rw [h5, fetchRun_succ, he']
      simp [fetchStep, ha, failTrace, maxAttempts, delayMs]

/-- An environment for the witness of C8: the first two attempts fail,
the third succeeds. -/
def env8 : FetchEnv :=
  ⟨fun i => if i < 2 then .error "boom".data else .ok "body".data⟩

/-- Witness for C8: with two transient failures the fetch settles
fulfilled on the third attempt, after two 3000 ms delays. -/
theorem fetchTextFromURL_retries_witness :
    (2 < maxAttempts ∧ (∀ j, j < 2 → (env8.attempt j).isOk = false) ∧
      env8.attempt 2 = .ok "body".data) ∧
    fetchTextFromURL env8 = (failTrace 2 ++ [FetchEvent.attemptCall 2], .ok "body".data) :=
  ⟨⟨by decide, by decide, rfl⟩,
    (fetchTextFromURL_retries env8).2.2.1 2 "body".data (by decide) (by decide) rfl⟩

/-! ### Content hasher and component identity (`lib/util.js` lines 94–111)

`getIDFromBase64PublicKey` base64-decodes the key, hashes it with
SHA-256 (Node's `crypto`, embedded as the FIPS 180-4 computation over
byte lists), hex-encodes the digest, keeps the first 32 hex characters
and maps each hex digit into the letters `'a'`–`'p'`. -/

/-- `Buffer.from(key, 'base64')` character values (invalid characters are
skipped, as Node does). -/
def base64CharValue? (c : Char) : Option Nat :=
  if 'A' ≤ c ∧ c ≤ 'Z' then some (c.toNat - 65)
  else if 'a' ≤ c ∧ c ≤ 'z' then some (c.toNat - 71)
  else if '0' ≤ c ∧ c ≤ '9' then some (c.toNat + 4)
  else if c = '+' then some 62
  else if c = '/' then some 63
  else none

/-- Repack 6-bit values into bytes, 4 values to 3 bytes, with the usual
tail handling. -/
def base64Bytes : List Nat → List Nat
  | a :: b :: c :: d :: rest =>
    (a * 4 + b / 16) % 256 :: ((b % 16) * 16 + c / 4) % 256 ::
      ((c % 4) * 64 + d) % 256 :: base64Bytes rest
  | [a, b] => [(a * 4 + b / 16) % 256]
  | [a, b, c] => [(a * 4 + b / 16) % 256, ((b % 16) * 16 + c / 4) % 256]
  | _ => []

def base64Decode (key : List Char) : List Nat :=
  base64Bytes (key.filterMap base64CharValue?)

/-- Truncation to a 32-bit word. -/
def w32 (n : Nat) : Nat := n % 4294967296

def rotr32 (x n : Nat) : Nat := w32 ((x >>> n) ||| (x <<< (32 - n)))

def ssig0 (x : Nat) : Nat := (rotr32 x 7) ^^^ (rotr32 x 18) ^^^ (x >>> 3)

def ssig1 (x : Nat) : Nat := (rotr32 x 17) ^^^ (rotr32 x 19) ^^^ (x >>> 10)

def bsig0 (x : Nat) : Nat := (rotr32 x 2) ^^^ (rotr32 x 13) ^^^ (rotr32 x 22)

def bsig1 (x : Nat) : Nat := (rotr32 x 6) ^^^ (rotr32 x 11) ^^^ (rotr32 x 25)

def chF (x y z : Nat) : Nat := (x &&& y) ^^^ ((x ^^^ 4294967295) &&& z)

def majF (x y z : Nat) : Nat := (x &&& y) ^^^ (x &&& z) ^^^ (y &&& z)

def sha256K : List Nat :=
  [1116352408, 1899447441, 3049323471, 3921009573,
   961987163, 1508970993, 2453635748, 2870763221,
   3624381080, 310598401, 607225278, 1426881987,
   1925078388, 2162078206, 2614888103, 3248222580,
   3835390401, 4022224774, 264347078, 604807628,
   770255983, 1249150122, 1555081692, 1996064986,
   2554220882, 2821834349, 2952996808, 3210313671,
   3336571891, 3584528711, 113926993, 338241895,
   666307205, 773529912, 1294757372, 1396182291,
   1695183700, 1986661051, 2177026350, 2456956037,
   2730485921, 2820302411, 3259730800, 3345764771,
   3516065817, 3600352804, 4094571909, 275423344,
   430227734, 506948616, 659060556, 883997877,
   958139571, 1322822218, 1537002063, 1747873779,
   1955562222, 2024104815, 2227730452, 2361852424,
   2428436474, 2756734187, 3204031479, 3329325298]

structure Sha256State where
  h0 : Nat
  h1 : Nat
  h2 : Nat
  h3 : Nat
  h4 : Nat
  h5 : Nat
  h6 : Nat
  h7 : Nat

def sha256Init : Sha256State :=
  ⟨1779033703, 3144134277, 1013904242, 2773480762,
   1359893119, 2600822924, 528734635, 1541459225⟩

/-- Big-endian 64-bit length field of the padding. -/
def bigEndian8 (n : Nat) : List Nat :=
  [(n >>> 56) % 256, (n >>> 48) % 256, (n >>> 40) % 256, (n >>> 32) % 256,
   (n >>> 24) % 256, (n >>> 16) % 256, (n >>> 8) % 256, n % 256]

def sha256Pad (msg : List Nat) : List Nat :=
  msg ++ 128 :: (List.replicate ((119 - msg.length % 64) % 64) 0 ++
    bigEndian8 (8 * msg.length))

/-- Split into 64-byte chunks (fuelled so that it reduces in the kernel). -/
def chunks64 : Nat → List Nat → List (List Nat)
  | 0, _ => []
  | _ + 1, [] => []
  | fuel + 1, b :: rest => (b :: rest.take 63) :: chunks64 fuel (rest.drop 63)

def word32At (chunk : List Nat) (i : Nat) : Nat :=
  (chunk.getD (4 * i) 0) <<< 24 ||| (chunk.getD (4 * i + 1) 0) <<< 16 |||
    (chunk.getD (4 * i + 2) 0) <<< 8 ||| chunk.getD (4 * i + 3) 0

def extendSchedule : Nat → List Nat → List Nat
  | 0, w => w
  | t + 1, w =>
    extendSchedule t (w ++ [w32 (ssig1 (w.getD (w.length - 2) 0) + w.getD (w.length - 7) 0 +
      ssig0 (w.getD (w.length - 15) 0) + w.getD (w.length - 16) 0)])

def sha256Round (r : Sha256State) (k w : Nat) : Sha256State :=
  ⟨w32 (w32 (r.h7 + bsig1 r.h4 + chF r.h4 r.h5 r.h6 + k + w) +
      w32 (bsig0 r.h0 + majF r.h0 r.h1 r.h2)),
   r.h0, r.h1, r.h2,
   w32 (r.h3 + w32 (r.h7 + bsig1 r.h4 + chF r.h4 r.h5 r.h6 + k + w)),
   r.h4, r.h5, r.h6⟩

def addStates (a b : Sha256State) : Sha256State :=
  ⟨w32 (a.h0 + b.h0), w32 (a.h1 + b.h1), w32 (a.h2 + b.h2), w32 (a.h3 + b.h3),
   w32 (a.h4 + b.h4), w32 (a.h5 + b.h5), w32 (a.h6 + b.h6), w32 (a.h7 + b.h7)⟩

def sha256Compress (st : Sha256State) (chunk : List Nat) : Sha256State :=
  addStates st
    ((sha256K.zip (extendSchedule 48 ((List.range 16).map (word32At chunk)))).foldl
      (fun r kw => sha256Round r kw.1 kw.2) st)

def wordBE (x : Nat) : List Nat :=
  [(x >>> 24) % 256, (x >>> 16) % 256, (x >>> 8) % 256, x % 256]

def stateBytes (s : Sha256State) : List Nat :=
  wordBE s.h0 ++ wordBE s.h1 ++ wordBE s.h2 ++ wordBE s.h3 ++
    wordBE s.h4 ++ wordBE s.h5 ++ wordBE s.h6 ++ wordBE s.h7

/-- The 32 digest bytes of SHA-256 over a byte list. -/
def sha256Digest (msg : List Nat) : List Nat :=
  stateBytes ((chunks64 (sha256Pad msg).length (sha256Pad msg)).foldl sha256Compress sha256Init)

/-- `digest('hex')` alphabet. -/
def hexDigitChars : List Char := "0123456789abcdef".data

def hexChar (n : Nat) : Char := hexDigitChars.getD n '0'

/-- `digest('hex')`: two lowercase hex characters per byte. -/
def bytesToHex (bs : List Nat) : List Char :=
  (bs.map (fun b => [hexChar (b / 16), hexChar (b % 16)])).flatten

/-- The content hash as `generateSHA256Hash` produces it (lines 94–97). -/
def generateSHA256Hash (data : List Nat) : List Char :=
  bytesToHex (sha256Digest data)

/-- The letter alphabet of `getIDFromBase64PublicKey`. -/
def idAlphabet : List Char := "abcdefghijklmnop".data

/-- `'abcdefghijklmnop'.charAt('0123456789abcdef'.indexOf(c))`. -/
def hexToIdChar (c : Char) : Char := idAlphabet.getD (hexDigitChars.indexOf c) 'a'

/-- `getIDFromBase64PublicKey` (lines 103–111). -/
def getIDFromBase64PublicKey (key : List Char) : List Char :=
  ((bytesToHex (sha256Digest (base64Decode key))).take 32).map
    (fun c => if c ∈ hexDigitChars then hexToIdChar c else c)

theorem wordBE_lt (x : Nat) : ∀ b ∈ wordBE x, b < 256 := by
  intro b hb
  simp only [wordBE, List.mem_cons, List.not_mem_nil, or_false] at hb
  rcases hb with rfl | rfl | rfl | rfl <;> exact Nat.mod_lt _ (by norm_num)

theorem stateBytes_lt (s : Sha256State) : ∀ b ∈ stateBytes s, b < 256 := by
  intro b hb
  simp only [stateBytes, List.mem_append] at hb
  rcases hb with ((((((h | h) | h) | h) | h) | h) | h) | h <;> exact wordBE_lt _ _ h

theorem stateBytes_length (s : Sha256State) : (stateBytes s).length = 32 := by
  simp [stateBytes, wordBE]

theorem sha256Digest_length (msg : List Nat) : (sha256Digest msg).length = 32 :=
  stateBytes_length _

theorem hexChar_mem (n : Nat) : hexChar n ∈ hexDigitChars := by
  unfold hexChar
  by_cases h : n < hexDigitChars.length
  · rw [List.getD_eq_getElem _ _ h]
    exact List.getElem_mem h
  · rw [List.getD_eq_default _ _ (Nat.le_of_not_lt h)]
    decide

theorem bytesToHex_length (bs : List Nat) : (bytesToHex bs).length = 2 * bs.length := by
  induction bs with
  | nil => rfl
  | cons b bs ih =>
    simp only [bytesToHex, List.map_cons, List.flatten_cons, List.length_append,
      List.length_cons, List.length_nil] at ih ⊢
    omega

theorem bytesToHex_mem (bs : List Nat) : ∀ c ∈ bytesToHex bs, c ∈ hexDigitChars := by
  intro c hc
  unfold bytesToHex at hc
  rw [List.mem_flatten] at hc
  obtain ⟨l, hl, hcl⟩ := hc
  rw [List.mem_map] at hl
  obtain ⟨b, hb, rfl⟩ := hl
  simp only [List.mem_cons, List.not_mem_nil, or_false] at hcl
  rcases hcl with rfl | rfl <;> exact hexChar_mem _

theorem hexToIdChar_range (c : Char) (h : c ∈ hexDigitChars) :
    'a' ≤ hexToIdChar c ∧ hexToIdChar c ≤ 'p' := by
  fin_cases h <;> decide

/-- C9: `getIDFromBase64PublicKey` is deterministic (equal keys give the
same identity), and its result has exactly 32 characters, each drawn
from the letters `'a'` through `'p'`. -/
theorem getIDFromBase64PublicKey_spec (k₁ k₂ : List Char) (hdet : k₁ = k₂) :
    getIDFromBase64PublicKey k₁ = getIDFromBase64PublicKey k₂ ∧
    (getIDFromBase64PublicKey k₁).length = 32 ∧
    (getIDFromBase64PublicKey k₁).all (fun c => decide ('a' ≤ c ∧ c ≤ 'p')) = true := by
  subst hdet
  refine ⟨rfl, ?_, ?_⟩
  · unfold getIDFromBase64PublicKey
    rw [List.length_map, List.length_take, bytesToHex_length, sha256Digest_length]
    omega
  · rw [List.all_eq_true]
    intro c hc
    unfold getIDFromBase64PublicKey at hc
    rw [List.mem_map] at hc
    obtain ⟨c', hc', rfl⟩ := hc
    have hmem : c' ∈ hexDigitChars :=
      bytesToHex_mem _ _ (List.mem_of_mem_take hc')
    rw [if_pos hmem]
    exact decide_eq_true (hexToIdChar_range c' hmem)

/-- Witness for C9 at the concrete base64 key `"AQAB"`. -/
theorem getIDFromBase64PublicKey_spec_witness :
    "AQAB".data = "AQAB".data ∧
    (getIDFromBase64PublicKey "AQAB".data = getIDFromBase64PublicKey "AQAB".data ∧
      (getIDFromBase64PublicKey "AQAB".data).length = 32 ∧
      (getIDFromBase64PublicKey "AQAB".data).all
        (fun c => decide ('a' ≤ c ∧ c ≤ 'p')) = true) :=
  ⟨rfl, getIDFromBase64PublicKey_spec "AQAB".data "AQAB".data rfl⟩

/-! ### The delta generator (`generatePuffDiff` / `generatePuffPatches`,
`lib/util.js` lines 199–249)

The external `puffin` binary, `unzip`, the manifest and the filesystem
are an oracle; the run is the ordered list of diff invocations and
error logs, plus the promise outcome. -/

/-- Oracle for `generatePuffPatches`: whether `unzip` succeeds, the
manifest's `key`, the crx file's bytes, the directory listing, and
whether `spawnSync('puffin', ...)` reports `result.error` for the given
source/destination/output triple. -/
structure PuffEnv where
  unzipOk : Bool
  manifestKey : List Char
  crxBytes : List Nat
  readdir : List Char → Except FsError (List (List Char))
  puffinError : List Char → List Char → List Char → Bool

inductive PuffAction
  | diff (sourceFile destinationFile outputFile : List Char)
  | logError (msg : List Char)
deriving DecidableEq

/-- JavaScript `a || b` on an optional string (empty string is falsy). -/
def jsOrString (a : Option (List Char)) (b : List Char) : List Char :=
  match a with
  | some s => if s = [] then b else s
  | none => b

def puffinFailMsg : List Char := "Failed to execute puffin".data

/-- `generatePuffDiff` (lines 199–215): throws on a missing parameter;
otherwise invokes `puffin`, only logging a reported error. -/
def generatePuffDiff (env : PuffEnv) (sourceFile destinationFile outputFile : List Char) :
    List PuffAction × Except (List Char) Unit :=
  if sourceFile = [] ∨ destinationFile = [] ∨ outputFile = [] then
    ([], .error "Missing parameters: source_file, destination_file, or output_file".data)
  else if env.puffinError sourceFile destinationFile outputFile then
    ([PuffAction.diff sourceFile destinationFile outputFile,
      PuffAction.logError puffinFailMsg], .ok ())
  else
    ([PuffAction.diff sourceFile destinationFile outputFile], .ok ())

/-- `componentId || getIDFromBase64PublicKey(data.key)` (line 224). -/
def puffIdOf (env : PuffEnv) (componentId : Option (List Char)) : List Char :=
  jsOrString componentId (getIDFromBase64PublicKey env.manifestKey)

/-- `build/previous/${id}` (line 228). -/
def downloadDirOf (id : List Char) : List Char := "build/previous/".data ++ id

/-- The `forEach` loop over the directory listing (lines 233–241): one
`generatePuffDiff` per `.crx` file; a throw aborts the loop, a logged
`puffin` failure does not. -/
def runPatchJobs (env : PuffEnv) (downloadDir outputDir crxFile : List Char) :
    List (List Char) → List PuffAction × Except (List Char) Unit
  | [] => ([], .ok ())
  | file :: rest =>
    if extOf (pathJoin downloadDir file) = ".crx".data then
      match generatePuffDiff env (pathJoin downloadDir file) crxFile
          (outputDir ++ '/' :: (nameOf (pathJoin downloadDir file) ++ ".puff".data)) with
      | (acts, .error e) => (acts, .error e)
      | (acts, .ok _) =>
        (acts ++ (runPatchJobs env downloadDir outputDir crxFile rest).1,
          (runPatchJobs env downloadDir outputDir crxFile rest).2)
    else runPatchJobs env downloadDir outputDir crxFile rest

/-- `generatePuffPatches` (lines 217–249).  The final
`Promise.all(...).then(...).catch(...)` swallows batch errors, so after a
successful directory walk the promise always fulfills. -/
def generatePuffPatches (env : PuffEnv) (crxFile : List Char)
    (componentId : Option (List Char)) (num : Nat) :
    List PuffAction × Except (List Char) Unit :=
  if env.unzipOk = false then ([], .error "unzip failed".data)
  else
    match env.readdir (downloadDirOf (puffIdOf env componentId)) with
    | .error _ => ([], .error fsErrorMsg)
    | .ok files =>
      runPatchJobs env (downloadDirOf (puffIdOf env componentId))
        (patchDirOf (puffIdOf env componentId) (generateSHA256Hash env.crxBytes))
        crxFile files

theorem pathJoin_ne_nil (a b : List Char) : pathJoin a b ≠ [] := by
  simp [pathJoin]

theorem runPatchJobs_spec (env : PuffEnv) (downloadDir outputDir crxFile : List Char)
    (hcrx : crxFile ≠ []) (files : List (List Char)) :
    (runPatchJobs env downloadDir outputDir crxFile files).2 = .ok () ∧
    ∀ file ∈ files, extOf (pathJoin downloadDir file) = ".crx".data →
      (PuffAction.diff (pathJoin downloadDir file) crxFile
          (outputDir ++ '/' :: (nameOf (pathJoin downloadDir file) ++ ".puff".data)) ∈
            (runPatchJobs env downloadDir outputDir crxFile files).1 ∧
        (env.puffinError (pathJoin downloadDir file) crxFile
            (outputDir ++ '/' :: (nameOf (pathJoin downloadDir file) ++ ".puff".data)) = true →
          PuffAction.logError puffinFailMsg ∈
            (runPatchJobs env downloadDir outputDir crxFile files).1)) := by
  induction files with
  | nil => exact ⟨rfl, by simp⟩
  | cons file rest ih =>
    have hguard : ¬(pathJoin downloadDir file = [] ∨ crxFile = [] ∨
        outputDir ++ '/' :: (nameOf (pathJoin downloadDir file) ++ ".puff".data) = []) := by
      push_neg
      exact ⟨pathJoin_ne_nil _ _, hcrx, by simp⟩
    by_cases hext : extOf (pathJoin downloadDir file) = ".crx".data
    · by_cases hp : env.puffinError (pathJoin downloadDir file) crxFile
          (outputDir ++ '/' :: (nameOf (pathJoin downloadDir file) ++ ".puff".data)) = true
      · constructor
        · simp only [runPatchJobs, hext, if_pos, generatePuffDiff, if_neg hguard, hp,
            if_true, ite_true]
          exact ih.1
        · intro f hf hfe
          rcases List.mem_cons.mp hf with rfl | hfr
          · constructor
            · simp only [runPatchJobs, hext, if_pos, generatePuffDiff, if_neg hguard, hp,
                if_true, ite_true]
              simp
            · intro _
              simp only [runPatchJobs, hext, if_pos, generatePuffDiff, if_neg hguard, hp,
                if_true, ite_true]
              simp
          · have hrec := ih.2 f hfr hfe
            constructor
            · simp only [runPatchJobs, hext, if_pos, generatePuffDiff, if_neg hguard, hp,
                if_true, ite_true]
              exact List.mem_append_right _ hrec.1
            · intro hpf
              simp only [runPatchJobs, hext, if_pos, generatePuffDiff, if_neg hguard, hp,
                if_true, ite_true]
              exact List.mem_append_right _ (hrec.2 hpf)
      · rw [Bool.not_eq_true] at hp
        constructor
        · simp only [runPatchJobs, hext, if_pos, generatePuffDiff, if_neg hguard, hp,
            Bool.false_eq_true, if_false, ite_false]
          exact ih.1
        · intro f hf hfe
          rcases List.mem_cons.mp hf with rfl | hfr
          · constructor
            · simp only [runPatchJobs, hext, if_pos, generatePuffDiff, if_neg hguard, hp,
                Bool.false_eq_true, if_false, ite_false]
              simp
            · intro hpf
              rw [hp] at hpf
              exact absurd hpf (by simp)
          · have hrec := ih.2 f hfr hfe
            constructor
            · simp only [runPatchJobs, hext, if_pos, generatePuffDiff, if_neg hguard, hp,
                Bool.false_eq_true, if_false, ite_false]
              exact List.mem_append_right _ hrec.1
            · intro hpf
              simp only [runPatchJobs, hext, if_pos, generatePuffDiff, if_neg hguard, hp,
                Bool.false_eq_true, if_false, ite_false]
              exact List.mem_append_right _ (hrec.2 hpf)
    · constructor
      · simp only [runPatchJobs, hext, if_false, ite_false]
        exact ih.1
      · intro f hf hfe
        rcases List.mem_cons.mp hf with rfl | hfr
        · exact absurd hfe hext
        · have hrec := ih.2 f hfr hfe
          constructor
          · simp only [runPatchJobs, hext, if_false, ite_false]
            exact hrec.1
          · intro hpf
            simp only [runPatchJobs, hext, if_false, ite_false]
            exact hrec.2 hpf

/-- C7: when the external diff reports an error for one (or every)
previous artifact, `generatePuffPatches` still attempts a diff for every
`.crx` file in the previous-versions directory, logs each reported
failure, and the batch completes without throwing. -/
theorem generatePuffPatches_partial_failure (env : PuffEnv) (crxFile : List Char)
    (componentId : Option (List Char)) (num : Nat) (files : List (List Char))
    (h1 : env.unzipOk = true)
    (h2 : env.readdir (downloadDirOf (puffIdOf env componentId)) = .ok files)
    (h3 : crxFile ≠ []) :
    (generatePuffPatches env crxFile componentId num).2 = .ok () ∧
    ∀ file ∈ files,
      extOf (pathJoin (downloadDirOf (puffIdOf env componentId)) file) = ".crx".data →
      (PuffAction.diff (pathJoin (downloadDirOf (puffIdOf env componentId)) file) crxFile
          (patchDirOf (puffIdOf env componentId) (generateSHA256Hash env.crxBytes) ++
            '/' :: (nameOf (pathJoin (downloadDirOf (puffIdOf env componentId)) file) ++
              ".puff".data)) ∈ (generatePuffPatches env crxFile componentId num).1 ∧
        (env.puffinError (pathJoin (downloadDirOf (puffIdOf env componentId)) file) crxFile
            (patchDirOf (puffIdOf env componentId) (generateSHA256Hash env.crxBytes) ++
              '/' :: (nameOf (pathJoin (downloadDirOf (puffIdOf env componentId)) file) ++
                ".puff".data)) = true →
          PuffAction.logError puffinFailMsg ∈
            (generatePuffPatches env crxFile componentId num).1)) := by
  have hrun := runPatchJobs_spec env (downloadDirOf (puffIdOf env componentId))
    (patchDirOf (puffIdOf env componentId) (generateSHA256Hash env.crxBytes)) crxFile h3 files
  have hdef : generatePuffPatches env crxFile componentId num =
      runPatchJobs env (downloadDirOf (puffIdOf env componentId))
        (patchDirOf (puffIdOf env componentId) (generateSHA256Hash env.crxBytes))
        crxFile files := by
    simp [generatePuffPatches, h1, h2]
  rw [hdef]
  exact hrun

/-- An environment for the witness of C7: one previous `.crx` artifact,
and `puffin` reports an error on every invocation. -/
def env7 : PuffEnv :=
  { unzipOk := true, manifestKey := [], crxBytes := [],
    readdir := fun _ => .ok ["old.crx".data],
    puffinError := fun _ _ _ => true }

/-- Witness for C7: despite the reported `puffin` failure the batch
fulfills and the diff for the one previous artifact was attempted. -/
theorem generatePuffPatches_partial_failure_witness :
    env7.unzipOk = true ∧
    env7.readdir (downloadDirOf (puffIdOf env7 (some "i".data))) = .ok ["old.crx".data] ∧
    "new.crx".data ≠ [] ∧
    ((generatePuffPatches env7 "new.crx".data (some "i".data) 2).2 = .ok () ∧
      ∀ file ∈ ["old.crx".data],
        extOf (pathJoin (downloadDirOf (puffIdOf env7 (some "i".data))) file) = ".crx".data →
        (PuffAction.diff (pathJoin (downloadDirOf (puffIdOf env7 (some "i".data))) file)
            "new.crx".data
            (patchDirOf (puffIdOf env7 (some "i".data)) (generateSHA256Hash env7.crxBytes) ++
              '/' :: (nameOf (pathJoin (downloadDirOf (puffIdOf env7 (some "i".data))) file) ++
                ".puff".data)) ∈
              (generatePuffPatches env7 "new.crx".data (some "i".data) 2).1 ∧
          (env7.puffinError
              (pathJoin (downloadDirOf (puffIdOf env7 (some "i".data))) file) "new.crx".data
              (patchDirOf (puffIdOf env7 (some "i".data)) (generateSHA256Hash env7.crxBytes) ++
                '/' :: (nameOf (pathJoin (downloadDirOf (puffIdOf env7 (some "i".data))) file) ++
                  ".puff".data)) = true →
            PuffAction.logError puffinFailMsg ∈
              (generatePuffPatches env7 "new.crx".data (some "i".data) 2).1))) :=
  ⟨rfl, rfl, by decide,
    generatePuffPatches_partial_failure env7 "new.crx".data (some "i".data) 2
      ["old.crx".data] rfl rfl (by decide)⟩
